import Mathlib

/-
Verification of the traversal and retry logic of the manage-google-one
scripts (list-drive.py and list-photos.py), as a shallow embedding.

The Drive namespace embeds list-drive.py:
  fetch_with_retries, process_item, list_files_recursive (split into its
  page loop and per-item loop), get_folder_id_by_name, and the argument
  handling of the main block.
The Photos namespace embeds list-photos.py:
  fetch_with_retries, list_google_photos, search, album_id_by_name, and
  the album-id resolution of the main block.

External effects are made explicit: the remote API is a parameter (a
fetch stub, or an environment mapping a folder id to the successive
page-fetch outcomes the API would return), a sleep counter stands for
time.sleep(1), printed stdout lines are returned as lists, and
sys.exit / raise become Except.  The traversal takes fuel because Lean
functions are total; every theorem either holds for all fuel or is
stated with fuel large enough that the fuel bound is never reached.
-/

namespace Drive

/-- A file or folder item as returned by files().list; the string fields
mirror the fields read by process_item, with missing fields as "". -/
structure Item where
  id : String
  name : String
  mimeType : String
  createdTime : String
  size : String
  quotaBytesUsed : String
  spaces : String
deriving DecidableEq

/-- One stdout record of list-drive.py, one field per tab-separated column. -/
structure Line where
  spaces : String
  createdTime : String
  quotaBytesUsed : String
  size : String
  id : String
  parentId : String
  name : String
deriving DecidableEq

/-- The record printed for an item listed under parent_id (line 81 of
list-drive.py). -/
def mkLine (it : Item) (parent_id : String) : Line :=
  Line.mk it.spaces it.createdTime it.quotaBytesUsed it.size it.id parent_id it.name

/-- The mime type that marks an item as a folder. -/
def folderMime : String := "application/vnd.google-apps.folder"

/-- Result of one successful files().list call: the files of the page and
whether a nextPageToken was present. -/
structure ListResult where
  files : List Item
  next : Bool
deriving DecidableEq

/-- An HttpError as raised inside list-drive.py: either it carries the
response status of a failed API call, or it was constructed from a plain
message (the raise of "Retries exhausted." at line 71). -/
inductive DriveErr where
  | httpStatus (status : Nat)
  | httpMessage (msg : String)
deriving DecidableEq

/-- The statuses retried by fetch_with_retries (line 64). -/
def transientStatuses : List Nat := [429, 500, 503]

/-- The retry loop of fetch_with_retries (lines 55-69): one fetch per
attempt; a transient status sleeps one second and retries, any other
error status re-raises at once, and running out of attempts raises
HttpError "Retries exhausted." (lines 70-71).  The fetch stub maps the
attempt number to a page or an error status; the second component of the
result counts the seconds slept. -/
def retryLoop (fetch : Nat → Except Nat ListResult) :
    Nat → Nat → Nat → Except DriveErr ListResult × Nat
  | _, 0, sleeps => (Except.error (DriveErr.httpMessage "Retries exhausted."), sleeps)
  | attempt, rem+1, sleeps =>
    match fetch attempt with
    | Except.ok r => (Except.ok r, sleeps)
    | Except.error s =>
      if s ∈ transientStatuses then retryLoop fetch (attempt+1) rem (sleeps+1)
      else (Except.error (DriveErr.httpStatus s), sleeps)

/-- fetch_with_retries of list-drive.py (lines 53-71), with its bound of
5 attempts passed explicitly. -/
def fetch_with_retries (fetch : Nat → Except Nat ListResult) (retries : Nat) :
    Except DriveErr ListResult × Nat :=
  retryLoop fetch 0 retries 0

end Drive

namespace Photos

/-- An HTTP response as seen by list-photos.py: status code and body. -/
structure Resp where
  status : Nat
  body : String
deriving DecidableEq

/-- The retry loop of fetch_with_retries in list-photos.py (lines 44-55):
status 200 returns the response, a transient status sleeps one second and
retries, any other status RETURNS the response (it is not raised), and
running out of attempts returns None.  The second component counts the
seconds slept. -/
def retryLoop (fetch : Nat → Resp) : Nat → Nat → Nat → Option Resp × Nat
  | _, 0, sleeps => (none, sleeps)
  | attempt, rem+1, sleeps =>
    let r := fetch attempt
    if r.status = 200 then (some r, sleeps)
    else if r.status ∈ [429, 500, 503] then retryLoop fetch (attempt+1) rem (sleeps+1)
    else (some r, sleeps)

/-- fetch_with_retries of list-photos.py (lines 42-55), with its bound of
5 attempts passed explicitly. -/
def fetch_with_retries (fetch : Nat → Resp) (retries : Nat) : Option Resp × Nat :=
  retryLoop fetch 0 retries 0

end Photos

namespace Drive

/-- The observable result of a traversal call: the visited set after the
call (visited_folders is mutated in place in the source, so it is threaded
through), the folder ids expanded by the call in expansion order (an id is
expanded when it passes the visited check and its pages are fetched), and
the stdout lines emitted by the call, in emission order. -/
structure TRes where
  vis : List String
  exp : List String
  out : List Line
deriving DecidableEq

/-- process_item of list-drive.py (lines 73-86): print the item's record,
then, if the item is a folder, recurse into it.  The recursive call to
list_files_recursive is abstracted as the parameter rec. -/
def process_item (rec : String → List String → TRes) (it : Item) (parent_id : String)
    (v : List String) : TRes :=
  let sub := if it.mimeType = folderMime then rec it.id v else TRes.mk v [] []
  TRes.mk sub.vis sub.exp (mkLine it parent_id :: sub.out)

/-- The `for item in items` loop of list_files_recursive (lines 112-113):
process each item of a page in order, threading the visited set. -/
def processItems (rec : String → List String → TRes) (parent_id : String) :
    List Item → List String → TRes
  | [], v => TRes.mk v [] []
  | it :: rest, v =>
    let r1 := process_item rec it parent_id v
    let r2 := processItems rec parent_id rest r1.vis
    TRes.mk r2.vis (r1.exp ++ r2.exp) (r1.out ++ r2.out)

/-- The `while True` page loop of list_files_recursive (lines 107-119),
driven by the successive outcomes of fetch_with_retries for this folder:
an error outcome is the HttpError caught at line 118, which stops the page
loop (lines already emitted stand); an ok page has its items processed,
and the loop continues exactly when a nextPageToken was present. -/
def pagesLoop (rec : String → List String → TRes) (folder_id : String) :
    List (Except DriveErr ListResult) → List String → TRes
  | [], v => TRes.mk v [] []
  | Except.error _ :: _, v => TRes.mk v [] []
  | Except.ok pg :: rest, v =>
    let r1 := processItems rec folder_id pg.files v
    if pg.next then
      let r2 := pagesLoop rec folder_id rest r1.vis
      TRes.mk r2.vis (r1.exp ++ r2.exp) (r1.out ++ r2.out)
    else r1

/-- list_files_recursive of list-drive.py (lines 88-119).  The environment
env maps a folder id to the successive page-fetch outcomes the API returns
for it.  A folder already in the visited set is skipped (lines 94-96);
otherwise it is marked visited (line 99) and its pages are listed.  Fuel
bounds the recursion depth so the function is total; every run of the real
script that terminates corresponds to a large enough fuel. -/
def list_files_recursive (env : String → List (Except DriveErr ListResult)) :
    Nat → String → List String → TRes
  | 0, _, v => TRes.mk v [] []
  | fuel+1, folder_id, v =>
    if folder_id ∈ v then TRes.mk v [] []
    else
      let r := pagesLoop (fun fid w => list_files_recursive env fuel fid w)
        folder_id (env folder_id) (folder_id :: v)
      TRes.mk r.vis (folder_id :: r.exp) r.out

/-- get_folder_id_by_name of list-drive.py (lines 35-51), applied to the
items the name query returned: an empty result prints to stderr and exits
with status 1, otherwise the first id is returned. -/
def get_folder_id_by_name (results : List String) : Except Nat String :=
  match results with
  | [] => Except.error 1
  | i :: _ => Except.ok i

/-- The stdout header row of list-drive.py (line 139). -/
def headerLine : String :=
  "Spaces\tCreatedTime\tQuotaBytesUsed\tSize\tID\tParent Folder ID\tName"

/-- Rendering of one record to its tab-separated stdout line (line 81). -/
def render (l : Line) : String :=
  String.intercalate "\t"
    [l.spaces, l.createdTime, l.quotaBytesUsed, l.size, l.id, l.parentId, l.name]

/-- The command line arguments of list-drive.py. -/
structure Args where
  id : Option String
  name : Option String

/-- The main block of list-drive.py (lines 121-142): pick the starting
folder id from the -i flag, else resolve the -n flag by name (which may
exit 1), else default to root; then print the header and the traversal
output.  lookup gives the items the name query returns; the error case
carries the exit status, and its stdout is empty because the exit happens
before the header is printed. -/
def drive_main (args : Args) (lookup : String → List String)
    (env : String → List (Except DriveErr ListResult)) (fuel : Nat) :
    Except Nat (List String) :=
  match (match args.id with
    | some i => Except.ok i
    | none => match args.name with
      | some nm => get_folder_id_by_name (lookup nm)
      | none => Except.ok "root") with
  | Except.error code => Except.error code
  | Except.ok folder_id =>
    Except.ok (headerLine :: (list_files_recursive env fuel folder_id []).out.map render)

end Drive

namespace Photos

/-- One media item as printed by the search loop of list-photos.py, with
missing fields as "". -/
structure MediaItem where
  mimeType : String
  creationTime : String
  id : String
  mediaItemsCount : String
  title : String
  filename : String
deriving DecidableEq

/-- The tab-separated row printed for one media item (lines 130-137). -/
def mediaRow (it : MediaItem) : String :=
  String.intercalate "\t"
    [it.mimeType, it.creationTime, it.id, it.mediaItemsCount, it.title, it.filename]

/-- The header row printed at the start of search (lines 111-118). -/
def searchHeader : String :=
  String.intercalate "\t"
    ["mimeType", "creationTime", "id", "mediaItemsCount", "title", "filename"]

/-- One page returned by mediaItems().search: its media items and whether
a nextPageToken was present. -/
structure SearchPage where
  mediaItems : List MediaItem
  next : Bool
deriving DecidableEq

/-- The `while True` loop of search (lines 119-140), driven by the
successive pages the API returns: print each item of the page, then
continue exactly when a nextPageToken was present. -/
def searchLoop : List SearchPage → List String
  | [] => []
  | pg :: rest =>
    pg.mediaItems.map mediaRow ++ (if pg.next then searchLoop rest else [])

/-- search of list-photos.py (lines 109-140): header row, then the rows of
every page up to the first page without a continuation token. -/
def search (pages : List SearchPage) : List String :=
  searchHeader :: searchLoop pages

/-- An album as read by album_id_by_name. -/
structure Album where
  id : String
  title : String
deriving DecidableEq

/-- One page returned by albums().list. -/
structure AlbumPage where
  albums : List Album
  next : Bool

/-- album_id_by_name of list-photos.py (lines 94-106): scan the album
pages for the first album whose title equals the name; return none when
the pages run out without a match. -/
def album_id_by_name (name : String) : List AlbumPage → Option String
  | [] => none
  | pg :: rest =>
    match pg.albums.find? (fun a => a.title == name) with
    | some a => some a.id
    | none => if pg.next then album_id_by_name name rest else none

/-- The command line arguments of list-photos.py relevant to album
selection. -/
structure Args where
  album_id : Option String
  album_name : Option String

/-- The album-id resolution of the main block of list-photos.py
(lines 166-174), exactly as written in the source: album_id starts as
None; the branch for the -i flag assigns album_id = album_id (the
self-assignment at line 168, which leaves it None); the -n flag raises if
album_id is already set, then resolves the name via lookup and raises if
the lookup finds nothing.  Raising becomes Except.error. -/
def resolve_album_id (args : Args) (lookup : String → Option String) :
    Except String (Option String) :=
  let album_id : Option String := none
  let album_id := if args.album_id.isSome then album_id else album_id
  match args.album_name with
  | none => Except.ok album_id
  | some nm =>
    if album_id.isSome then Except.error "Do not provide both album_id and album_name"
    else
      match lookup nm with
      | some i => Except.ok (some i)
      | none => Except.error ("album_name " ++ nm ++ " not found")

/-- The tail of the main block of list-photos.py (lines 166-175): resolve
the album id, then run search scoped to it.  pages maps the chosen album
id to the pages the search API returns for it; an uncaught exception
becomes Except.error, and its stdout is empty because search (which prints
the header) is only reached after resolution succeeds. -/
def photos_main (args : Args) (lookup : String → Option String)
    (pages : Option String → List SearchPage) : Except String (List String) :=
  match resolve_album_id args lookup with
  | Except.error e => Except.error e
  | Except.ok albumId => Except.ok (search (pages albumId))

/-- The json payload of one page of the mediaItems listing used by
list_google_photos: the mediaItems key may be absent, and next records
whether a nextPageToken was present. -/
structure PhotosData where
  mediaItems : Option (List (String × String))
  next : Bool

/-- The `while True` loop of list_google_photos (lines 57-92), driven by
the successive outcomes of fetch_with_retries: a None outcome (retries
exhausted) breaks the loop, so no further pages are requested; a payload
without mediaItems breaks; otherwise each item prints
creationTime TAB filename, and the loop continues exactly when a
nextPageToken was present. -/
def list_google_photos : List (Option PhotosData) → List String
  | [] => []
  | none :: _ => []
  | some d :: rest =>
    match d.mediaItems with
    | none => []
    | some items =>
      items.map (fun it => it.1 ++ "\t" ++ it.2) ++
        (if d.next then list_google_photos rest else [])

end Photos

namespace Drive

/-- A plain (non-folder) file item with the given id. -/
def fileItem (i : String) : Item := Item.mk i ("f" ++ i) "text/plain" "" "" "" ""

/-- A folder item with the given id. -/
def folderItem (i : String) : Item := Item.mk i ("d" ++ i) folderMime "" "" "" ""

/-- A cyclic folder graph: folder A lists folder B as its only child and B
lists A (the cycle of the spec's testable property). -/
def cycEnv : String → List (Except DriveErr ListResult) := fun f =>
  if f = "A" then [Except.ok (ListResult.mk [folderItem "B"] false)]
  else if f = "B" then [Except.ok (ListResult.mk [folderItem "A"] false)]
  else []

/-- A graph whose root R has two child folders F and G; listing F returns
one good page (with file f1 and a continuation token) and then a fetch
that exhausts its retries, while G lists file g1 normally. -/
def failEnv : String → List (Except DriveErr ListResult) := fun f =>
  if f = "R" then [Except.ok (ListResult.mk [folderItem "F", folderItem "G"] false)]
  else if f = "F" then
    [Except.ok (ListResult.mk [fileItem "f1"] true),
     (fetch_with_retries (fun _ => Except.error 503) 5).1]
  else if f = "G" then [Except.ok (ListResult.mk [fileItem "g1"] false)]
  else []

/-- An environment in which every folder returns a single page holding the
plain file X: no listed child ever carries a folder id. -/
def leafEnv : String → List (Except DriveErr ListResult) := fun _ =>
  [Except.ok (ListResult.mk [fileItem "X"] false)]

/-- The visited-set and expansion invariant of one traversal step over an
initial visited set v: the final visited set is exactly the step's
expansions (most recent first) on top of v, the expansions are pairwise
distinct, and no expanded id was already visited. -/
def StepInv (v : List String) (r : TRes) : Prop :=
  r.vis = r.exp.reverse ++ v ∧ r.exp.Nodup ∧ ∀ x ∈ r.exp, x ∉ v

/-- The invariant holds for every call of the recursion parameter. -/
def RecInv (rec : String → List String → TRes) : Prop :=
  ∀ fid v, StepInv v (rec fid v)

/-- Pre-order bookkeeping over a list of output lines: reading the lines
in order, every line's parent id must already be in seen, where seen
starts as the given list and accumulates the id of every line read. -/
def PreOrd (seen : List String) : List Line → Prop
  | [] => True
  | l :: rest => l.parentId ∈ seen ∧ PreOrd (l.id :: seen) rest

/-- Every call of the recursion parameter emits output in pre-order with
respect to the folder it was asked to list. -/
def RecPre (rec : String → List String → TRes) : Prop :=
  ∀ fid v, PreOrd [fid] (rec fid v).out

/-- A line that the listing of some folder could have produced: its item
appears among the files of a successful page outcome of env for that
folder, and the line is that item's record under that folder. -/
def LineFromEnv (env : String → List (Except DriveErr ListResult)) (l : Line) : Prop :=
  ∃ fid pg, Except.ok pg ∈ env fid ∧ ∃ it ∈ pg.files, l = mkLine it fid

/-- Every line emitted by a call of the recursion parameter comes from
the environment. -/
def RecFrom (env : String → List (Except DriveErr ListResult))
    (rec : String → List String → TRes) : Prop :=
  ∀ fid v, ∀ l ∈ (rec fid v).out, LineFromEnv env l

end Drive

namespace Drive

theorem StepInv.comp {v : List String} {r1 r2 : TRes} (h1 : StepInv v r1)
    (h2 : StepInv r1.vis r2) (out' : List Line) :
    StepInv v (TRes.mk r2.vis (r1.exp ++ r2.exp) out') := by
  obtain ⟨hv1, hn1, hd1⟩ := h1
  obtain ⟨hv2, hn2, hd2⟩ := h2
  refine ⟨?_, ?_, ?_⟩
  · simp [hv2, hv1, List.reverse_append, List.append_assoc]
  · refine List.Nodup.append hn1 hn2 ?_
    intro x hx1 hx2
    exact hd2 x hx2 (by rw [hv1]; exact List.mem_append.mpr (Or.inl (List.mem_reverse.mpr hx1)))
  · intro x hx
    rcases List.mem_append.mp hx with h | h
    · exact hd1 x h
    · intro hxv
      exact hd2 x h (by rw [hv1]; exact List.mem_append.mpr (Or.inr hxv))

theorem stepInv_process_item {rec : String → List String → TRes} (hrec : RecInv rec)
    (it : Item) (fid : String) (v : List String) :
    StepInv v (process_item rec it fid v) := by
  unfold process_item
  by_cases h : it.mimeType = folderMime
  · simp only [if_pos h]
    obtain ⟨h1, h2, h3⟩ := hrec it.id v
    exact ⟨h1, h2, h3⟩
  · simp only [if_neg h]
    exact ⟨rfl, List.nodup_nil, fun x hx => absurd hx (List.not_mem_nil x)⟩

theorem stepInv_processItems {rec : String → List String → TRes} (hrec : RecInv rec)
    (fid : String) (items : List Item) (v : List String) :
    StepInv v (processItems rec fid items v) := by
  induction items generalizing v with
  | nil => exact ⟨rfl, List.nodup_nil, fun x hx => absurd hx (List.not_mem_nil x)⟩
  | cons it rest ih =>
    exact StepInv.comp (stepInv_process_item hrec it fid v)
      (ih (process_item rec it fid v).vis) _

theorem stepInv_pagesLoop {rec : String → List String → TRes} (hrec : RecInv rec)
    (fid : String) (outcomes : List (Except DriveErr ListResult)) (v : List String) :
    StepInv v (pagesLoop rec fid outcomes v) := by
  induction outcomes generalizing v with
  | nil => exact ⟨rfl, List.nodup_nil, fun x hx => absurd hx (List.not_mem_nil x)⟩
  | cons o rest ih =>
    match o with
    | Except.error e => exact ⟨rfl, List.nodup_nil, fun x hx => absurd hx (List.not_mem_nil x)⟩
    | Except.ok pg =>
      show StepInv v (if pg.next then _ else _)
      by_cases h : pg.next
      · simp only [if_pos h]
        exact StepInv.comp (stepInv_processItems hrec fid pg.files v)
          (ih (processItems rec fid pg.files v).vis) _
      · simp only [if_neg h]
        exact stepInv_processItems hrec fid pg.files v

theorem recInv_list_files_recursive (env : String → List (Except DriveErr ListResult))
    (fuel : Nat) : RecInv (fun fid v => list_files_recursive env fuel fid v) := by
  induction fuel with
  | zero => exact fun fid v => ⟨rfl, List.nodup_nil, fun x hx => absurd hx (List.not_mem_nil x)⟩
  | succ fuel ih =>
    intro fid v
    show StepInv v (list_files_recursive env (fuel+1) fid v)
    rw [list_files_recursive]
    by_cases h : fid ∈ v
    · simp only [if_pos h]
      exact ⟨rfl, List.nodup_nil, fun x hx => absurd hx (List.not_mem_nil x)⟩
    · simp only [if_neg h]
      obtain ⟨h1, h2, h3⟩ :=
        stepInv_pagesLoop ih fid (env fid) (fid :: v)
      refine ⟨?_, ?_, ?_⟩
      · simp [h1, List.reverse_append]
      · refine List.nodup_cons.mpr ⟨?_, h2⟩
        intro hmem
        exact h3 fid hmem (List.mem_cons_self fid v)
      · intro x hx
        rcases List.mem_cons.mp hx with rfl | hx'
        · exact h
        · intro hxv
          exact h3 x hx' (List.mem_cons.mpr (Or.inr hxv))

end Drive

namespace Drive

/-- The output of process_item: the item's own record first, then the
output of the recursion when the item is a folder. -/
theorem process_item_out {rec : String → List String → TRes} {it : Item}
    {fid : String} {v : List String} :
    (process_item rec it fid v).out =
      mkLine it fid :: (if it.mimeType = folderMime then (rec it.id v).out else []) := by
  unfold process_item
  by_cases h : it.mimeType = folderMime <;> simp [h]

/-- The visited set left by process_item. -/
theorem process_item_vis {rec : String → List String → TRes} {it : Item}
    {fid : String} {v : List String} :
    (process_item rec it fid v).vis =
      (if it.mimeType = folderMime then (rec it.id v).vis else v) := by
  unfold process_item
  by_cases h : it.mimeType = folderMime <;> simp [h]

/-- The item loop on a nonempty list: process the head, then the tail with
the updated visited set; the head's output comes first and the tail of the
sibling list is processed regardless of what happened inside the head. -/
theorem processItems_cons {rec : String → List String → TRes} {fid : String}
    {it : Item} {rest : List Item} {v : List String} :
    processItems rec fid (it :: rest) v =
      TRes.mk (processItems rec fid rest (process_item rec it fid v).vis).vis
        ((process_item rec it fid v).exp ++
          (processItems rec fid rest (process_item rec it fid v).vis).exp)
        ((process_item rec it fid v).out ++
          (processItems rec fid rest (process_item rec it fid v).vis).out) := rfl

/-- A page-fetch outcome that is an error stops the page loop at once:
nothing further is emitted, no further page of the sequence is looked at,
and the visited set is left as it was. -/
theorem pagesLoop_error {rec : String → List String → TRes} {fid : String}
    {e : DriveErr} {rest : List (Except DriveErr ListResult)} {v : List String} :
    pagesLoop rec fid (Except.error e :: rest) v = TRes.mk v [] [] := rfl

/-- A successful page with a continuation token: its items are processed
and the loop goes on to the following outcomes. -/
theorem pagesLoop_ok_next {rec : String → List String → TRes} {fid : String}
    {pg : ListResult} {rest : List (Except DriveErr ListResult)} {v : List String}
    (h : pg.next = true) :
    pagesLoop rec fid (Except.ok pg :: rest) v =
      TRes.mk (pagesLoop rec fid rest (processItems rec fid pg.files v).vis).vis
        ((processItems rec fid pg.files v).exp ++
          (pagesLoop rec fid rest (processItems rec fid pg.files v).vis).exp)
        ((processItems rec fid pg.files v).out ++
          (pagesLoop rec fid rest (processItems rec fid pg.files v).vis).out) := by
  rw [pagesLoop]
  simp [h]

/-- A successful page without a continuation token ends the page loop. -/
theorem pagesLoop_ok_last {rec : String → List String → TRes} {fid : String}
    {pg : ListResult} {rest : List (Except DriveErr ListResult)} {v : List String}
    (h : pg.next = false) :
    pagesLoop rec fid (Except.ok pg :: rest) v = processItems rec fid pg.files v := by
  rw [pagesLoop]
  simp [h]

/-- Unfolding of list_files_recursive on an unvisited folder. -/
theorem list_files_recursive_expand {env : String → List (Except DriveErr ListResult)}
    {fuel : Nat} {fid : String} {v : List String} (h : fid ∉ v) :
    list_files_recursive env (fuel+1) fid v =
      TRes.mk (pagesLoop (fun f w => list_files_recursive env fuel f w) fid (env fid)
          (fid :: v)).vis
        (fid :: (pagesLoop (fun f w => list_files_recursive env fuel f w) fid (env fid)
          (fid :: v)).exp)
        (pagesLoop (fun f w => list_files_recursive env fuel f w) fid (env fid)
          (fid :: v)).out := by
  rw [list_files_recursive]
  simp [h]

/-- Unfolding of list_files_recursive on an already visited folder: the
cycle guard returns without expanding or emitting anything. -/
theorem list_files_recursive_skip {env : String → List (Except DriveErr ListResult)}
    {fuel : Nat} {fid : String} {v : List String} (h : fid ∈ v) :
    list_files_recursive env (fuel+1) fid v = TRes.mk v [] [] := by
  rw [list_files_recursive]
  simp [h]

end Drive

namespace Drive

theorem preOrd_mono : ∀ {out : List Line} {seen seen' : List String},
    (∀ x ∈ seen, x ∈ seen') → PreOrd seen out → PreOrd seen' out
  | [], _, _, _, _ => trivial
  | l :: rest, seen, seen', hsub, h => by
    obtain ⟨h1, h2⟩ := h
    refine ⟨hsub _ h1, preOrd_mono ?_ h2⟩
    intro x hx
    rcases List.mem_cons.mp hx with rfl | hx'
    · exact List.mem_cons_self _ _
    · exact List.mem_cons.mpr (Or.inr (hsub x hx'))

theorem preOrd_append : ∀ {o1 o2 : List Line} {seen : List String},
    PreOrd seen o1 → PreOrd seen o2 → PreOrd seen (o1 ++ o2)
  | [], _, _, _, h2 => h2
  | l :: t, o2, seen, h1, h2 => by
    obtain ⟨hp, ht⟩ := h1
    exact ⟨hp, preOrd_append ht
      (preOrd_mono (fun x hx => List.mem_cons.mpr (Or.inr hx)) h2)⟩

theorem preOrd_process_item {rec : String → List String → TRes} (hrec : RecPre rec)
    {it : Item} {fid : String} {v : List String} {seen : List String}
    (hfid : fid ∈ seen) : PreOrd seen (process_item rec it fid v).out := by
  rw [process_item_out]
  refine ⟨hfid, ?_⟩
  by_cases h : it.mimeType = folderMime
  · rw [if_pos h]
    refine preOrd_mono ?_ (hrec it.id v)
    intro x hx
    have hx' : x = it.id := List.mem_singleton.mp hx
    subst hx'
    exact List.mem_cons_self _ _
  · rw [if_neg h]
    trivial

theorem preOrd_processItems {rec : String → List String → TRes} (hrec : RecPre rec)
    (fid : String) : ∀ (items : List Item) (v seen : List String), fid ∈ seen →
    PreOrd seen (processItems rec fid items v).out
  | [], _, _, _ => trivial
  | it :: rest, v, seen, hfid => by
    rw [processItems_cons]
    exact preOrd_append (preOrd_process_item hrec hfid)
      (preOrd_processItems hrec fid rest _ seen hfid)

theorem preOrd_pagesLoop {rec : String → List String → TRes} (hrec : RecPre rec)
    (fid : String) : ∀ (outcomes : List (Except DriveErr ListResult))
    (v seen : List String), fid ∈ seen →
    PreOrd seen (pagesLoop rec fid outcomes v).out
  | [], _, _, _ => trivial
  | Except.error e :: rest, v, seen, hfid => trivial
  | Except.ok pg :: rest, v, seen, hfid => by
    by_cases h : pg.next = true
    · rw [pagesLoop_ok_next h]
      exact preOrd_append (preOrd_processItems hrec fid pg.files v seen hfid)
        (preOrd_pagesLoop hrec fid rest _ seen hfid)
    · rw [pagesLoop_ok_last (Bool.not_eq_true pg.next ▸ h)]
      exact preOrd_processItems hrec fid pg.files v seen hfid

theorem recPre_list_files_recursive (env : String → List (Except DriveErr ListResult)) :
    ∀ fuel : Nat, RecPre (fun fid v => list_files_recursive env fuel fid v)
  | 0 => fun _ _ => trivial
  | fuel+1 => by
    intro fid v
    show PreOrd [fid] (list_files_recursive env (fuel+1) fid v).out
    by_cases h : fid ∈ v
    · rw [list_files_recursive_skip h]
      trivial
    · rw [list_files_recursive_expand h]
      exact preOrd_pagesLoop (recPre_list_files_recursive env fuel) fid (env fid)
        (fid :: v) [fid] (List.mem_singleton.mpr rfl)

/-- Reading off PreOrd at a split of the output: a line's parent is in the
initial seen set or is the id of an earlier line. -/
theorem preOrd_earlier : ∀ {pre : List Line} {out : List Line} {seen : List String}
    {l : Line} {post : List Line}, PreOrd seen out → out = pre ++ l :: post →
    l.parentId ∈ seen ∨ ∃ m ∈ pre, m.id = l.parentId
  | [], out, seen, l, post, h, heq => by
    subst heq
    exact Or.inl h.1
  | m :: pre', out, seen, l, post, h, heq => by
    subst heq
    obtain ⟨-, htail⟩ := h
    rcases preOrd_earlier htail rfl with h1 | h2
    · rcases List.mem_cons.mp h1 with hp | hp
      · exact Or.inr ⟨m, List.mem_cons_self _ _, hp.symm⟩
      · exact Or.inl hp
    · obtain ⟨m', hm', hid⟩ := h2
      exact Or.inr ⟨m', List.mem_cons.mpr (Or.inr hm'), hid⟩

end Drive

namespace Drive

theorem lineFromEnv_process_item {env : String → List (Except DriveErr ListResult)}
    {rec : String → List String → TRes} (hrec : RecFrom env rec) {it : Item}
    {fid : String} {v : List String} (hit : LineFromEnv env (mkLine it fid)) :
    ∀ l ∈ (process_item rec it fid v).out, LineFromEnv env l := by
  intro l hl
  rw [process_item_out] at hl
  rcases List.mem_cons.mp hl with rfl | hl'
  · exact hit
  · by_cases h : it.mimeType = folderMime
    · rw [if_pos h] at hl'
      exact hrec it.id v l hl'
    · rw [if_neg h] at hl'
      exact absurd hl' (List.not_mem_nil l)

theorem lineFromEnv_processItems {env : String → List (Except DriveErr ListResult)}
    {rec : String → List String → TRes} (hrec : RecFrom env rec) (fid : String) :
    ∀ (items : List Item) (v : List String),
      (∀ it ∈ items, LineFromEnv env (mkLine it fid)) →
      ∀ l ∈ (processItems rec fid items v).out, LineFromEnv env l
  | [], _, _, l, hl => absurd hl (List.not_mem_nil l)
  | it :: rest, v, hitems, l, hl => by
    rw [processItems_cons] at hl
    rcases List.mem_append.mp hl with h1 | h2
    · exact lineFromEnv_process_item hrec (hitems it (List.mem_cons_self _ _)) l h1
    · exact lineFromEnv_processItems hrec fid rest _
        (fun x hx => hitems x (List.mem_cons.mpr (Or.inr hx))) l h2

theorem lineFromEnv_pagesLoop {env : String → List (Except DriveErr ListResult)}
    {rec : String → List String → TRes} (hrec : RecFrom env rec) (fid : String) :
    ∀ (outcomes : List (Except DriveErr ListResult)) (v : List String),
      (∀ o ∈ outcomes, o ∈ env fid) →
      ∀ l ∈ (pagesLoop rec fid outcomes v).out, LineFromEnv env l
  | [], _, _, l, hl => absurd hl (List.not_mem_nil l)
  | Except.error e :: rest, v, _, l, hl => absurd hl (List.not_mem_nil l)
  | Except.ok pg :: rest, v, houts, l, hl => by
    have hitems : ∀ it ∈ pg.files, LineFromEnv env (mkLine it fid) :=
      fun it hit => ⟨fid, pg, houts _ (List.mem_cons_self _ _), it, hit, rfl⟩
    by_cases h : pg.next = true
    · rw [pagesLoop_ok_next h] at hl
      rcases List.mem_append.mp hl with h1 | h2
      · exact lineFromEnv_processItems hrec fid pg.files v hitems l h1
      · exact lineFromEnv_pagesLoop hrec fid rest _
          (fun o ho => houts o (List.mem_cons.mpr (Or.inr ho))) l h2
    · rw [pagesLoop_ok_last (Bool.not_eq_true pg.next ▸ h)] at hl
      exact lineFromEnv_processItems hrec fid pg.files v hitems l hl

theorem recFrom_list_files_recursive (env : String → List (Except DriveErr ListResult)) :
    ∀ fuel : Nat, RecFrom env (fun fid v => list_files_recursive env fuel fid v)
  | 0 => fun _ _ l hl => absurd hl (List.not_mem_nil l)
  | fuel+1 => by
    intro fid v l hl
    replace hl : l ∈ (list_files_recursive env (fuel+1) fid v).out := hl
    by_cases h : fid ∈ v
    · rw [list_files_recursive_skip h] at hl
      exact absurd hl (List.not_mem_nil l)
    · rw [list_files_recursive_expand h] at hl
      exact lineFromEnv_pagesLoop (recFrom_list_files_recursive env fuel) fid (env fid)
        (fid :: v) (fun o ho => ho) l hl

end Drive

namespace Drive

/-- Items that are not folders are printed and never recursed into, so the
item loop leaves the visited set alone, expands nothing and emits exactly
one record per item, in list order. -/
theorem processItems_no_folders {rec : String → List String → TRes} {fid : String} :
    ∀ {items : List Item} {v : List String},
      (∀ it ∈ items, it.mimeType ≠ folderMime) →
      processItems rec fid items v = TRes.mk v [] (items.map (fun it => mkLine it fid))
  | [], _, _ => rfl
  | it :: rest, v, h => by
    rw [processItems_cons]
    have hit : it.mimeType ≠ folderMime := h it (List.mem_cons_self _ _)
    have h1 : process_item rec it fid v = TRes.mk v [] [mkLine it fid] := by
      unfold process_item
      rw [if_neg hit]
    rw [h1, processItems_no_folders (fun x hx => h x (List.mem_cons.mpr (Or.inr hx)))]
    simp

/-- When every attempt fails with a transient status, the retry loop
sleeps once per remaining attempt and ends by raising the exhausted-retry
HttpError. -/
theorem retryLoop_all_transient_drive {f : Nat → Except Nat ListResult}
    (hf : ∀ a, ∃ s ∈ transientStatuses, f a = Except.error s) :
    ∀ (rem attempt sleeps : Nat), retryLoop f attempt rem sleeps =
      (Except.error (DriveErr.httpMessage "Retries exhausted."), sleeps + rem)
  | 0, attempt, sleeps => by simp [retryLoop]
  | rem+1, attempt, sleeps => by
    obtain ⟨s, hs, hfa⟩ := hf attempt
    rw [retryLoop, hfa]
    simp only [hs, if_pos]
    rw [retryLoop_all_transient_drive hf rem (attempt+1) (sleeps+1)]
    congr 1
    omega

end Drive

namespace Photos

/-- When every attempt returns a transient status, the photos retry loop
sleeps once per remaining attempt and ends by returning None. -/
theorem retryLoop_all_transient_photos {f : Nat → Resp}
    (hf : ∀ a, (f a).status ∈ [429, 500, 503]) :
    ∀ (rem attempt sleeps : Nat), retryLoop f attempt rem sleeps = (none, sleeps + rem)
  | 0, attempt, sleeps => by simp [retryLoop]
  | rem+1, attempt, sleeps => by
    have hs := hf attempt
    have h200 : ¬ (f attempt).status = 200 := by
      rcases List.mem_cons.mp hs with h | h
      · omega
      rcases List.mem_cons.mp h with h | h
      · omega
      rcases List.mem_cons.mp h with h | h
      · omega
      · exact absurd h (List.not_mem_nil _)
    rw [retryLoop]
    simp only [h200, if_neg, hs, if_pos, if_false]
    rw [retryLoop_all_transient_photos hf rem (attempt+1) (sleeps+1)]
    congr 1
    omega

end Photos

namespace Drive

/-- Unfolding of process_item on a folder item. -/
theorem process_item_folder {rec : String → List String → TRes} {it : Item}
    {fid : String} {v : List String} (h : it.mimeType = folderMime) :
    process_item rec it fid v =
      TRes.mk (rec it.id v).vis (rec it.id v).exp (mkLine it fid :: (rec it.id v).out) := by
  unfold process_item
  rw [if_pos h]

/-- One expansion step of the cyclic graph at folder A. -/
theorem cyc_stepA (f : Nat) :
    list_files_recursive cycEnv (f+1) "A" [] =
      TRes.mk (list_files_recursive cycEnv f "B" ["A"]).vis
        ("A" :: (list_files_recursive cycEnv f "B" ["A"]).exp)
        (mkLine (folderItem "B") "A" :: (list_files_recursive cycEnv f "B" ["A"]).out) := by
  rw [list_files_recursive_expand (List.not_mem_nil "A")]
  have e1 : cycEnv "A" = [Except.ok (ListResult.mk [folderItem "B"] false)] := rfl
  rw [e1, pagesLoop_ok_last rfl, processItems_cons, process_item_folder rfl]
  simp [processItems, folderItem]

/-- One expansion step of the cyclic graph at folder B. -/
theorem cyc_stepB (f : Nat) :
    list_files_recursive cycEnv (f+1) "B" ["A"] =
      TRes.mk (list_files_recursive cycEnv f "A" ["B", "A"]).vis
        ("B" :: (list_files_recursive cycEnv f "A" ["B", "A"]).exp)
        (mkLine (folderItem "A") "B" :: (list_files_recursive cycEnv f "A" ["B", "A"]).out) := by
  rw [list_files_recursive_expand (by decide)]
  have e2 : cycEnv "B" = [Except.ok (ListResult.mk [folderItem "A"] false)] := rfl
  rw [e2, pagesLoop_ok_last rfl, processItems_cons, process_item_folder rfl]
  simp [processItems, folderItem]

/-- On the cyclic graph the traversal is already complete with fuel 3:
adding any amount of fuel does not change the result, which is the
fuel-based rendering of termination. -/
theorem cyc_stable (n : Nat) :
    list_files_recursive cycEnv (n+3) "A" [] = list_files_recursive cycEnv 3 "A" [] := by
  have hR : list_files_recursive cycEnv 3 "A" [] =
      TRes.mk ["B", "A"] ["A", "B"]
        [mkLine (folderItem "B") "A", mkLine (folderItem "A") "B"] := by
    decide
  rw [hR, show n+3 = (n+2)+1 from rfl, cyc_stepA (n+2), show n+2 = (n+1)+1 from rfl,
    cyc_stepB (n+1), list_files_recursive_skip (by decide)]

end Drive

/-- Claim C1: when a page fetch for a folder fails terminally (for example
because fetch_with_retries exhausted its attempts), only the subtree being
listed is aborted: the enclosing folder's page loop stops at the error and
requests nothing further (first conjunct), a page already processed before
the error keeps its emitted lines (second conjunct), the item loop of the
parent folder always goes on to the remaining sibling items, whatever
happened inside the current item's subtree (third conjunct), and on the
concrete graph failEnv, where listing F dies after one good page while its
sibling G is healthy, the overall output holds F's already-emitted child
and the whole subtree of G (fourth conjunct). -/
theorem fetch_error_aborts_only_subtree :
    (∀ (rec : String → List String → Drive.TRes) (fid : String) (e : Drive.DriveErr)
      (rest : List (Except Drive.DriveErr Drive.ListResult)) (v : List String),
      Drive.pagesLoop rec fid (Except.error e :: rest) v = Drive.TRes.mk v [] []) ∧
    (∀ (rec : String → List String → Drive.TRes) (fid : String) (items : List Drive.Item)
      (e : Drive.DriveErr) (rest : List (Except Drive.DriveErr Drive.ListResult))
      (v : List String),
      (Drive.pagesLoop rec fid
        (Except.ok (Drive.ListResult.mk items true) :: Except.error e :: rest) v).out =
        (Drive.processItems rec fid items v).out) ∧
    (∀ (rec : String → List String → Drive.TRes) (fid : String) (it : Drive.Item)
      (rest : List Drive.Item) (v : List String),
      (Drive.processItems rec fid (it :: rest) v).out =
        (Drive.process_item rec it fid v).out ++
          (Drive.processItems rec fid rest (Drive.process_item rec it fid v).vis).out) ∧
    (Drive.list_files_recursive Drive.failEnv 10 "R" []).out =
      [Drive.mkLine (Drive.folderItem "F") "R", Drive.mkLine (Drive.fileItem "f1") "F",
       Drive.mkLine (Drive.folderItem "G") "R", Drive.mkLine (Drive.fileItem "g1") "G"] := by
  refine ⟨fun rec fid e rest v => rfl, ?_, fun rec fid it rest v => rfl, by decide⟩
  intro rec fid items e rest v
  rw [Drive.pagesLoop_ok_next rfl, Drive.pagesLoop_error]
  simp

/-- Claim C2 counterexample: the fetch_with_retries of list-photos.py does
not raise when all 5 attempts fail transiently; run on a stub that answers
503 every time, it returns the ordinary value None (after the 5 one-second
sleeps), so the claim that every fetch_with_retries raises a terminal
error on exhausted retries is false for this call. -/
theorem photos_exhausted_retries_returns_none :
    Photos.fetch_with_retries (fun _ => Photos.Resp.mk 503 "unavailable") 5 = (none, 5) := rfl

/-- Claim C2 as amended: when all 5 attempts fail with a transient status,
Drive's fetch_with_retries raises HttpError "Retries exhausted.", which is
distinguishable from the re-raised non-retryable HttpError that carries a
response status; Photos' fetch_with_retries instead returns None, which is
distinguishable from the response object returned in the non-retryable
case; and in both scripts the caller then requests no further page of the
sequence (the Drive page loop stops at the error outcome, and
list_google_photos breaks on None). -/
theorem exhausted_retries_terminal_behavior :
    (∀ f : Nat → Except Nat Drive.ListResult,
      (∀ a, ∃ s ∈ Drive.transientStatuses, f a = Except.error s) →
      Drive.fetch_with_retries f 5 =
        (Except.error (Drive.DriveErr.httpMessage "Retries exhausted."), 5)) ∧
    (∀ s : Nat, Drive.DriveErr.httpMessage "Retries exhausted." ≠ Drive.DriveErr.httpStatus s) ∧
    (∀ (rec : String → List String → Drive.TRes) (fid : String) (e : Drive.DriveErr)
      (rest : List (Except Drive.DriveErr Drive.ListResult)) (v : List String),
      (Drive.pagesLoop rec fid (Except.error e :: rest) v).out = []) ∧
    (∀ f : Nat → Photos.Resp, (∀ a, (f a).status ∈ [429, 500, 503]) →
      Photos.fetch_with_retries f 5 = (none, 5)) ∧
    (∀ r : Photos.Resp, (none : Option Photos.Resp) ≠ some r) ∧
    (∀ rest : List (Option Photos.PhotosData), Photos.list_google_photos (none :: rest) = []) := by
  refine ⟨?_, ?_, fun rec fid e rest v => rfl, ?_, ?_, fun rest => rfl⟩
  · intro f hf
    exact Drive.retryLoop_all_transient_drive hf 5 0 0
  · intro s h
    cases h
  · intro f hf
    exact Photos.retryLoop_all_transient_photos hf 5 0 0
  · intro r h
    cases h

/-- Witness for C2's amended theorem at concrete always-transient stubs. -/
theorem exhausted_retries_terminal_behavior_witness :
    Drive.fetch_with_retries (fun _ => Except.error 503) 5 =
      (Except.error (Drive.DriveErr.httpMessage "Retries exhausted."), 5) ∧
    Photos.fetch_with_retries (fun _ => Photos.Resp.mk 503 "busy") 5 = (none, 5) :=
  ⟨exhausted_retries_terminal_behavior.1 _ (fun _ => ⟨503, by decide, rfl⟩),
   exhausted_retries_terminal_behavior.2.2.2.1 _ (fun _ => by decide)⟩

/-- Claim C3 counterexample: the fetch_with_retries of list-photos.py does
not raise on a non-retryable status; run on a stub that answers 404, it
returns the 404 response itself as an ordinary value (with zero retries
and zero sleeps), so the claim that every fetch_with_retries raises
(propagates an exception) on a non-retryable status is false for this
call. -/
theorem photos_nonretryable_returned_not_raised :
    Photos.fetch_with_retries (fun _ => Photos.Resp.mk 404 "not found") 5 =
      (some (Photos.Resp.mk 404 "not found"), 0) := rfl

/-- Claim C3 as amended: on an error status outside the transient set
{429, 500, 503}, both fetch_with_retries implementations finish after the
first attempt with zero retries and zero backoff sleeps; Drive's re-raises
the error (it propagates as an exception), while Photos' returns the
response object to the caller instead of raising. -/
theorem nonretryable_error_immediate :
    (∀ (f : Nat → Except Nat Drive.ListResult) (s : Nat), f 0 = Except.error s →
      s ∉ Drive.transientStatuses →
      Drive.fetch_with_retries f 5 = (Except.error (Drive.DriveErr.httpStatus s), 0)) ∧
    (∀ (f : Nat → Photos.Resp) (s : Nat), (f 0).status = s → s ≠ 200 →
      s ∉ [429, 500, 503] →
      Photos.fetch_with_retries f 5 = (some (f 0), 0)) := by
  constructor
  · intro f s hf hs
    show Drive.retryLoop f 0 5 0 = _
    rw [Drive.retryLoop, hf]
    simp [hs]
  · intro f s hf h200 hs
    show Photos.retryLoop f 0 5 0 = _
    rw [Photos.retryLoop]
    simp only [hf, h200, if_false, hs, if_neg]

/-- Witness for C3's amended theorem at concrete 404 stubs. -/
theorem nonretryable_error_immediate_witness :
    Drive.fetch_with_retries (fun _ => Except.error 404) 5 =
      (Except.error (Drive.DriveErr.httpStatus 404), 0) ∧
    Photos.fetch_with_retries (fun _ => Photos.Resp.mk 404 "x") 5 =
      (some (Photos.Resp.mk 404 "x"), 0) :=
  ⟨nonretryable_error_immediate.1 _ 404 rfl (by decide),
   nonretryable_error_immediate.2 _ 404 rfl (by decide) (by decide)⟩

/-- Claim C4: in any run over any folder graph, the folders expanded by
list_files_recursive are pairwise distinct and disjoint from the visited
set the call started with (an id is expanded only after the membership
check and is inserted immediately, so no folder id is ever expanded
twice); and on the concrete two-folder cycle (A lists B, B lists A) the
traversal expands each of A and B exactly once and terminates: any fuel
beyond 3 leaves the result unchanged. -/
theorem folders_expanded_at_most_once_and_cycle_terminates :
    (∀ (env : String → List (Except Drive.DriveErr Drive.ListResult)) (fuel : Nat)
      (fid : String) (v : List String),
      (Drive.list_files_recursive env fuel fid v).exp.Nodup ∧
      ∀ x ∈ (Drive.list_files_recursive env fuel fid v).exp, x ∉ v) ∧
    (∀ n : Nat, Drive.list_files_recursive Drive.cycEnv (n+3) "A" [] =
      Drive.list_files_recursive Drive.cycEnv 3 "A" []) ∧
    (Drive.list_files_recursive Drive.cycEnv 3 "A" []).exp = ["A", "B"] := by
  refine ⟨?_, Drive.cyc_stable, by decide⟩
  intro env fuel fid v
  obtain ⟨-, h2, h3⟩ := Drive.recInv_list_files_recursive env fuel fid v
  exact ⟨h2, h3⟩

/-- Claim C5, evaluated at the failing input: passing the album-id flag to
list-photos.py does not scope the search to that album.  Because of the
self-assignment album_id = album_id at line 168, the resolved album id
stays None for every lookup function, and search runs with albumId None
(the unfiltered pages), not with the provided identifier ALBUM123. -/
theorem album_id_flag_ignored :
    ∀ (lookup : String → Option String) (pages : Option String → List Photos.SearchPage),
      Photos.resolve_album_id (Photos.Args.mk (some "ALBUM123") none) lookup =
        Except.ok none ∧
      Photos.photos_main (Photos.Args.mk (some "ALBUM123") none) lookup pages =
        Except.ok (Photos.search (pages none)) :=
  fun _ _ => ⟨rfl, rfl⟩

/-- Claim C6: with a fetcher that returns 3 pages linked by continuation
tokens (the last page carrying none), the page loops request pages until
no token is returned and emit every item of every page exactly once, in
page order: Drive's list_files_recursive emits exactly the concatenation
of the three pages' items (stated for non-folder items, so that no lines
of nested subtrees interleave), Photos' search emits the header and then
exactly the concatenation of the three pages' rows, and a page without a
token ends the photos loop even if more pages were available behind it. -/
theorem pagination_emits_all_items_in_order
    (env : String → List (Except Drive.DriveErr Drive.ListResult)) (fuel : Nat)
    (fid : String) (v : List String) (xs ys zs : List Drive.Item)
    (henv : env fid = [Except.ok (Drive.ListResult.mk xs true),
      Except.ok (Drive.ListResult.mk ys true), Except.ok (Drive.ListResult.mk zs false)])
    (hnf : ∀ it ∈ xs ++ ys ++ zs, it.mimeType ≠ Drive.folderMime)
    (hv : fid ∉ v) :
    (Drive.list_files_recursive env (fuel+1) fid v).out =
      (xs ++ ys ++ zs).map (fun it => Drive.mkLine it fid) ∧
    (∀ ps qs rs : List Photos.MediaItem,
      Photos.search [Photos.SearchPage.mk ps true, Photos.SearchPage.mk qs true,
        Photos.SearchPage.mk rs false] =
        Photos.searchHeader :: (ps ++ qs ++ rs).map Photos.mediaRow) ∧
    (∀ (ps : List Photos.MediaItem) (rest : List Photos.SearchPage),
      Photos.search (Photos.SearchPage.mk ps false :: rest) =
        Photos.searchHeader :: ps.map Photos.mediaRow) := by
  have hxs : ∀ it ∈ xs, it.mimeType ≠ Drive.folderMime := fun it h => hnf it (by simp [h])
  have hys : ∀ it ∈ ys, it.mimeType ≠ Drive.folderMime := fun it h => hnf it (by simp [h])
  have hzs : ∀ it ∈ zs, it.mimeType ≠ Drive.folderMime := fun it h => hnf it (by simp [h])
  refine ⟨?_, ?_, ?_⟩
  · rw [Drive.list_files_recursive_expand hv, henv, Drive.pagesLoop_ok_next rfl,
      Drive.processItems_no_folders hxs, Drive.pagesLoop_ok_next rfl,
      Drive.processItems_no_folders hys, Drive.pagesLoop_ok_last rfl,
      Drive.processItems_no_folders hzs]
    simp
  · intro ps qs rs
    simp [Photos.search, Photos.searchLoop]
  · intro ps rest
    simp [Photos.search, Photos.searchLoop]

/-- Witness for C6 on a concrete three-page environment. -/
theorem pagination_emits_all_items_in_order_witness :
    (Drive.list_files_recursive
      (fun _ => [Except.ok (Drive.ListResult.mk [Drive.fileItem "p1"] true),
        Except.ok (Drive.ListResult.mk [Drive.fileItem "p2"] true),
        Except.ok (Drive.ListResult.mk [Drive.fileItem "p3"] false)]) 1 "R" []).out =
      ([Drive.fileItem "p1"] ++ [Drive.fileItem "p2"] ++ [Drive.fileItem "p3"]).map
        (fun it => Drive.mkLine it "R") :=
  (pagination_emits_all_items_in_order _ 0 "R" []
    [Drive.fileItem "p1"] [Drive.fileItem "p2"] [Drive.fileItem "p3"]
    rfl (by decide) (by decide)).1

/-- Claim C7: when the fetch returns transient status 429 on each of the
first four attempts and succeeds on the fifth, both fetch_with_retries
implementations return the successful result after sleeping a fixed one
second between attempts, 4 seconds of sleep in total (the sleep counter
counts one second per backoff, so there is no exponential growth). -/
theorem transient_retries_then_success :
    (∀ pg : Drive.ListResult,
      Drive.fetch_with_retries (fun a => if a < 4 then Except.error 429 else Except.ok pg) 5 =
        (Except.ok pg, 4)) ∧
    (∀ b : String,
      Photos.fetch_with_retries
        (fun a => if a < 4 then Photos.Resp.mk 429 "slow down" else Photos.Resp.mk 200 b) 5 =
        (some (Photos.Resp.mk 200 b), 4)) :=
  ⟨fun _ => rfl, fun _ => rfl⟩

/-- Claim C8: a run started with the name flag whose name lookup finds
zero matches ends with a non-zero exit status (Drive: sys.exit 1 in
get_folder_id_by_name) or an uncaught exception (Photos: the raise in the
main block), and nothing has been written to standard output, because in
both scripts the header print and the traversal or search happen only
after the name is resolved. -/
theorem name_lookup_no_match_exits :
    (∀ (args : Drive.Args) (lookup : String → List String)
      (env : String → List (Except Drive.DriveErr Drive.ListResult)) (fuel : Nat)
      (nm : String), args.id = none → args.name = some nm → lookup nm = [] →
      Drive.drive_main args lookup env fuel = Except.error 1) ∧
    (∀ (args : Photos.Args) (lookup : String → Option String)
      (pages : Option String → List Photos.SearchPage) (nm : String),
      args.album_id = none → args.album_name = some nm → lookup nm = none →
      Photos.photos_main args lookup pages =
        Except.error ("album_name " ++ nm ++ " not found")) := by
  constructor
  · intro args lookup env fuel nm hid hname hlook
    unfold Drive.drive_main
    rw [hid, hname]
    simp [Drive.get_folder_id_by_name, hlook]
  · intro args lookup pages nm hid hname hlook
    unfold Photos.photos_main Photos.resolve_album_id
    rw [hid, hname]
    simp [hlook]

/-- Witness for C8 with a concrete missing name. -/
theorem name_lookup_no_match_exits_witness :
    Drive.drive_main (Drive.Args.mk none (some "Missing")) (fun _ => []) Drive.cycEnv 5 =
      Except.error 1 ∧
    Photos.photos_main (Photos.Args.mk none (some "Missing")) (fun _ => none)
      (fun _ => []) = Except.error ("album_name " ++ "Missing" ++ " not found") :=
  ⟨name_lookup_no_match_exits.1 _ _ _ 5 "Missing" rfl rfl rfl,
   name_lookup_no_match_exits.2 _ _ _ "Missing" rfl rfl rfl⟩

/-- Claim C9 counterexample: on the cyclic graph cycEnv (A lists B, B
lists A) the traversal started at A does emit a line whose ID column is
the starting folder A itself, because B returns A as one of its children
and process_item prints every child before the cycle guard can skip the
recursion; so the claim that the starting folder never appears as an ID
row of its own is false on this input. -/
theorem root_emitted_in_cycle :
    Drive.mkLine (Drive.folderItem "A") "B" ∈
      (Drive.list_files_recursive Drive.cycEnv 10 "A" []).out ∧
    (Drive.mkLine (Drive.folderItem "A") "B").id = "A" := by
  exact ⟨by decide, rfl⟩

/-- Claim C9 as amended: list_files_recursive never emits a line for the
starting folder on its own account: every output line is the record of an
item returned as a child of some expanded folder's page, so the start id
appears as an ID row only if some listed folder returns it as a child (as
in a cycle); whenever no page of the environment lists an item carrying
the start id, no output line carries it. -/
theorem output_lines_come_from_children
    (env : String → List (Except Drive.DriveErr Drive.ListResult)) (fuel : Nat)
    (start : String) (v : List String)
    (h : ∀ fid pg, Except.ok pg ∈ env fid → ∀ it ∈ pg.files, it.id ≠ start) :
    ∀ l ∈ (Drive.list_files_recursive env fuel start v).out,
      Drive.LineFromEnv env l ∧ l.id ≠ start := by
  intro l hl
  have hfrom := Drive.recFrom_list_files_recursive env fuel start v l hl
  refine ⟨hfrom, ?_⟩
  obtain ⟨fid, pg, hpg, it, hit, rfl⟩ := hfrom
  exact h fid pg hpg it hit

/-- Witness for C9's amended theorem on a one-file environment. -/
theorem output_lines_come_from_children_witness :
    Drive.LineFromEnv Drive.leafEnv (Drive.mkLine (Drive.fileItem "X") "R") ∧
    (Drive.mkLine (Drive.fileItem "X") "R").id ≠ "R" := by
  have hhyp : ∀ fid pg, Except.ok pg ∈ Drive.leafEnv fid →
      ∀ it ∈ pg.files, it.id ≠ "R" := by
    intro fid pg hpg it hit
    have hpg2 : pg = Drive.ListResult.mk [Drive.fileItem "X"] false :=
      Except.ok.inj (List.mem_singleton.mp hpg)
    subst hpg2
    have hit2 : it = Drive.fileItem "X" := List.mem_singleton.mp hit
    subst hit2
    decide
  exact output_lines_come_from_children Drive.leafEnv 2 "R" [] hhyp
    (Drive.mkLine (Drive.fileItem "X") "R") (by decide)

/-- Claim C10: emission is pre-order.  process_item prints a folder's own
record before recursing into it, so wherever the traversal output is split
around a line, that line's parent is either the starting folder or the id
of some line emitted strictly earlier: every folder's line precedes the
lines of all of its descendants. -/
theorem parent_line_precedes_children
    (env : String → List (Except Drive.DriveErr Drive.ListResult)) (fuel : Nat)
    (start : String) (v : List String) (pre post : List Drive.Line) (l : Drive.Line)
    (h : (Drive.list_files_recursive env fuel start v).out = pre ++ l :: post) :
    l.parentId = start ∨ ∃ m ∈ pre, m.id = l.parentId := by
  have hp := Drive.recPre_list_files_recursive env fuel start v
  rcases Drive.preOrd_earlier hp h with h1 | h2
  · exact Or.inl (List.mem_singleton.mp h1)
  · exact Or.inr h2

/-- Witness for C10: in the failEnv traversal, the line of file f1 (child
of folder F) is preceded by the line of F itself. -/
theorem parent_line_precedes_children_witness :
    (Drive.mkLine (Drive.fileItem "f1") "F").parentId = "R" ∨
    ∃ m ∈ [Drive.mkLine (Drive.folderItem "F") "R"],
      m.id = (Drive.mkLine (Drive.fileItem "f1") "F").parentId :=
  parent_line_precedes_children Drive.failEnv 10 "R" []
    [Drive.mkLine (Drive.folderItem "F") "R"]
    [Drive.mkLine (Drive.folderItem "G") "R", Drive.mkLine (Drive.fileItem "g1") "G"]
    (Drive.mkLine (Drive.fileItem "f1") "F") (by decide)

/-- Witness for C4 at the concrete cyclic graph with a nonempty initial
visited set. -/
theorem folders_expanded_at_most_once_and_cycle_terminates_witness :
    (Drive.list_files_recursive Drive.cycEnv 5 "A" ["Z"]).exp.Nodup ∧
    "B" ∉ ["Z"] :=
  ⟨(folders_expanded_at_most_once_and_cycle_terminates.1 Drive.cycEnv 5 "A" ["Z"]).1,
   (folders_expanded_at_most_once_and_cycle_terminates.1 Drive.cycEnv 5 "A" ["Z"]).2
     "B" (by decide)⟩
